import Mathlib

/-!
Shallow embedding of `climdir/__init__.py` (the `Cmip5File` metadata record):
its attribute dictionary, validated mutation, the derived temporal accessors,
and the three string generators (`cmor_fname`, `cmor_fp`, `datanode_fp`).
Python strings are modelled as `List Char`; Python exceptions as an explicit
error type threaded through `Except` (and, for `update`, as a final state
paired with an optional error, since a Python exception leaves mutations made
before the raise in place).
-/

namespace Climdir

/-- A Python string: a sequence of unicode code points. -/
abbrev PyStr := List Char

/-- The Python exceptions the component can raise: `SyntaxWarning` for an
unknown keyword (what the spec calls `UnknownField`), `AttributeError` for a
missing attribute or an undeletable property (the spec's `MissingField` /
`FieldNotSet`), `IndexError` from list indexing, and the grammar failure of
the external extractors (the spec's `PathGrammarError`). -/
inductive PyError where
  | unknownField (name : String)
  | attributeError (name : String)
  | indexError
  | pathError
deriving DecidableEq, Repr

deriving instance DecidableEq for Except

/-- The instance `__dict__`: an insertion-ordered mapping from attribute name
to string value. -/
abbrev State := List (String × PyStr)

/-- Lookup of a stored attribute (`__dict__` access / `x in self.__dict__`). -/
def lookupAttr (st : State) (k : String) : Option PyStr :=
  (st.find? (fun p => p.1 = k)).map (fun p => p.2)

/-- `getattr(self, k)` for a plain (non-property) attribute: the stored value,
or `AttributeError` when absent. -/
def getattr (st : State) (k : String) : Except PyError PyStr :=
  match lookupAttr st k with
  | some v => .ok v
  | none => .error (.attributeError k)

/-- Plain `__dict__` store: replace in place when the key exists (a Python
dict keeps the original position), else append. -/
def dictSet (st : State) (k : String) (v : PyStr) : State :=
  if st.any (fun p => p.1 = k) then
    st.map (fun p => if p.1 = k then (k, v) else p)
  else st ++ [(k, v)]

/-- Python list indexing `l[i]` for a non-negative index. -/
def listGet (l : List PyStr) (i : Nat) : Except PyError PyStr :=
  match l.get? i with
  | some x => .ok x
  | none => .error .indexError

/-- Python list item assignment `l[i] = v` for a non-negative index. -/
def listSet (l : List PyStr) (i : Nat) (v : PyStr) : Except PyError (List PyStr) :=
  if i < l.length then .ok (l.set i v) else .error .indexError

/-- Python `s.split(sep)` for a one-character separator (keeps empty pieces;
`"".split(sep) == [""]`). -/
def pySplit (sep : Char) : List Char → List (List Char)
  | [] => [[]]
  | c :: cs =>
    if c = sep then [] :: pySplit sep cs
    else
      match pySplit sep cs with
      | [] => [[c]]
      | t :: ts => (c :: t) :: ts

/-- Python `sep.join(l)` for a one-character separator. -/
def pyJoin (sep : Char) : List (List Char) → List Char
  | [] => []
  | [t] => t
  | t :: ts => t ++ sep :: pyJoin sep ts

/-- `Cmip5File.set_timeval`: rewrite one hyphen-separated segment of
`temporal_subset`.  Reads `self.temporal_subset` first (AttributeError when
unset); a falsy (empty) stored value makes the guard skip everything. -/
def set_timeval (st : State) (index : Nat) (value : PyStr) : Except PyError State :=
  match getattr st "temporal_subset" with
  | .error e => .error e
  | .ok ts =>
    if ts = [] then .ok st
    else
      match listSet (pySplit '-' ts) index value with
      | .error e => .error e
      | .ok l => .ok (dictSet st "temporal_subset" (pyJoin '-' l))

/-- The `t_start` property getter: segment 0 of `temporal_subset`. -/
def t_start_get (st : State) : Except PyError (Option PyStr) :=
  match getattr st "temporal_subset" with
  | .error e => .error e
  | .ok ts =>
    if ts = [] then .ok none
    else
      match listGet (pySplit '-' ts) 0 with
      | .error e => .error e
      | .ok x => .ok (some x)

/-- The `t_start` property setter: `set_timeval(0, value)`. -/
def t_start_set (st : State) (value : PyStr) : Except PyError State :=
  set_timeval st 0 value

/-- The `t_end` property getter: segment 1 of `temporal_subset`. -/
def t_end_get (st : State) : Except PyError (Option PyStr) :=
  match getattr st "temporal_subset" with
  | .error e => .error e
  | .ok ts =>
    if ts = [] then .ok none
    else
      match listGet (pySplit '-' ts) 1 with
      | .error e => .error e
      | .ok x => .ok (some x)

/-- The `t_end` property setter: `set_timeval(1, value)`. -/
def t_end_set (st : State) (value : PyStr) : Except PyError State :=
  set_timeval st 1 value

/-- The `temporal_suffix` property getter: segment 2 when more than two
segments exist, else `None`. -/
def temporal_suffix_get (st : State) : Except PyError (Option PyStr) :=
  match getattr st "temporal_subset" with
  | .error e => .error e
  | .ok ts =>
    if ts ≠ [] ∧ 2 < (pySplit '-' ts).length then
      match listGet (pySplit '-' ts) 2 with
      | .error e => .error e
      | .ok x => .ok (some x)
    else .ok none

/-- The `temporal_suffix` property setter: replace segment 2 when a truthy
suffix exists, else append a new third segment. -/
def temporal_suffix_set (st : State) (value : PyStr) : Except PyError State :=
  match getattr st "temporal_subset" with
  | .error e => .error e
  | .ok ts =>
    if ts = [] then .ok st
    else
      match temporal_suffix_get st with
      | .error e => .error e
      | .ok suf =>
        match suf with
        | some s =>
          if s = [] then
            .ok (dictSet st "temporal_subset" (pyJoin '-' (pySplit '-' ts ++ [value])))
          else
            match listSet (pySplit '-' ts) 2 value with
            | .error e => .error e
            | .ok l => .ok (dictSet st "temporal_subset" (pyJoin '-' l))
        | none =>
          .ok (dictSet st "temporal_subset" (pyJoin '-' (pySplit '-' ts ++ [value])))

/-- The names of the three property-backed derived fields.  They live on the
class, not in `__dict__`: `setattr` routes through their setters and
`delattr` always fails (the properties define no deleter). -/
def PROPERTY_ATTS : List String := ["t_start", "t_end", "temporal_suffix"]

/-- `setattr(self, k, v)`: property dispatch for the three derived names,
plain `__dict__` store otherwise. -/
def py_setattr (st : State) (k : String) (v : PyStr) : Except PyError State :=
  if k = "t_start" then t_start_set st v
  else if k = "t_end" then t_end_set st v
  else if k = "temporal_suffix" then temporal_suffix_set st v
  else .ok (dictSet st k v)

/-- `delattr(self, k)`: the three properties have no deleter, so deleting them
raises `AttributeError`; a plain name is removed when stored and raises
`AttributeError` when absent. -/
def py_delattr (st : State) (k : String) : Except PyError State :=
  if k ∈ PROPERTY_ATTS then .error (.attributeError k)
  else if st.any (fun p => p.1 = k) then .ok (st.filter (fun p => p.1 ≠ k))
  else .error (.attributeError k)

def ATTR_KEYS : List String :=
  ["activity", "product", "institute", "model", "experiment", "frequency",
   "modeling_realm", "mip_table", "ensemble_member", "version_number",
   "variable_name", "temporal_subset", "geographical_info", "t_start",
   "t_end", "temporal_suffix"]

/-- `Cmip5File._update_known_atts`: iterate the supplied pairs in order;
an unknown name raises `SyntaxWarning`, a falsy value is deleted, otherwise
the attribute is set.  A Python exception does not undo earlier iterations,
so the result is the state as mutated so far paired with the error, if any. -/
def updateKnownAtts : State → List (String × PyStr) → State × Option PyError
  | st, [] => (st, none)
  | st, (k, v) :: rest =>
    if k ∈ ATTR_KEYS then
      if v = [] then
        match py_delattr st k with
        | .ok st₁ => updateKnownAtts st₁ rest
        | .error e => (st, some e)
      else
        match py_setattr st k v with
        | .ok st₁ => updateKnownAtts st₁ rest
        | .error e => (st, some e)
    else (st, some (.unknownField k))

/-- `Cmip5File.update`. -/
def update (st : State) (kwargs : List (String × PyStr)) : State × Option PyError :=
  updateKnownAtts st kwargs

/-- `Cmip5File.delete`: `update` with a falsy value (`False`, embedded as the
empty string, which is equally falsy) for each given name. -/
def delete (st : State) (args : List String) : State × Option PyError :=
  updateKnownAtts st (args.map (fun k => (k, [])))

def CMOR_FNAME_REQUIRED_ATTS : List String :=
  ["variable_name", "mip_table", "model", "experiment", "ensemble_member"]

def CMOR_FNAME_OPTIONAL_ATTS : List String :=
  ["temporal_subset", "geographical_info"]

def CMOR_FP_ATTS : List String :=
  ["activity", "product", "institute", "model", "experiment", "frequency",
   "modeling_realm", "variable_name", "ensemble_member"]

def DATANODE_FP_ATTS : List String :=
  ["activity", "product", "institute", "model", "experiment", "frequency",
   "modeling_realm", "mip_table", "ensemble_member", "version_number",
   "variable_name"]

/-- The list comprehension `[getattr(self, x) for x in atts]`: values in list
order, raising `AttributeError` at the first absent name. -/
def getattrList (st : State) : List String → Except PyError (List PyStr)
  | [] => .ok []
  | k :: ks =>
    match getattr st k with
    | .error e => .error e
    | .ok v =>
      match getattrList st ks with
      | .error e => .error e
      | .ok vs => .ok (v :: vs)

/-- `Cmip5File.cmor_fname`: the five required values, then each stored
optional value, `'_'`-joined, plus the literal suffix `.nc`. -/
def cmor_fname (st : State) : Except PyError PyStr :=
  match getattrList st CMOR_FNAME_REQUIRED_ATTS with
  | .error e => .error e
  | .ok req =>
    .ok (pyJoin '_' (req ++ CMOR_FNAME_OPTIONAL_ATTS.filterMap (lookupAttr st))
         ++ ".nc".toList)

/-- One step of posix `os.path.join`. -/
def ospath_join_acc (acc p : List Char) : List Char :=
  if p.head? = some '/' then p
  else if acc = [] ∨ acc.getLast? = some '/' then acc ++ p
  else acc ++ '/' :: p

/-- Posix `os.path.join(*parts)`. -/
def ospath_join (parts : List PyStr) : PyStr :=
  match parts with
  | [] => []
  | p :: ps => ps.foldl ospath_join_acc p

/-- `Cmip5File.get_joined_file_path`: the attribute values in list order,
then the generated filename, joined as path components. -/
def get_joined_file_path (st : State) (atts : List String) : Except PyError PyStr :=
  match getattrList st atts with
  | .error e => .error e
  | .ok vs =>
    match cmor_fname st with
    | .error e => .error e
    | .ok fnm => .ok (ospath_join (vs ++ [fnm]))

/-- `Cmip5File.cmor_fp`. -/
def cmor_fp (st : State) : Except PyError PyStr :=
  get_joined_file_path st CMOR_FP_ATTS

/-- `Cmip5File.datanode_fp`. -/
def datanode_fp (st : State) : Except PyError PyStr :=
  get_joined_file_path st DATANODE_FP_ATTS

/-- Modelled from the spec: `get_cmor_fname_meta` lives in `climdir/path.py`,
which is not among the sources.  Per the spec a filename is the `'_'`-joined
required values, optionally followed by `temporal_subset` and then
`geographical_info`, plus a literal `.nc`; the extractor returns the
field-name-to-value mapping (values non-empty) or fails with the grammar
error. -/
def get_cmor_fname_meta (s : PyStr) : Except PyError State :=
  if s.length < 4 ∨ s.drop (s.length - 3) ≠ ".nc".toList then .error .pathError
  else
    match pySplit '_' (s.take (s.length - 3)) with
    | [v, mt, mo, ex, en] =>
      if v ≠ [] ∧ mt ≠ [] ∧ mo ≠ [] ∧ ex ≠ [] ∧ en ≠ [] then
        .ok [("variable_name", v), ("mip_table", mt), ("model", mo),
             ("experiment", ex), ("ensemble_member", en)]
      else .error .pathError
    | [v, mt, mo, ex, en, ts] =>
      if v ≠ [] ∧ mt ≠ [] ∧ mo ≠ [] ∧ ex ≠ [] ∧ en ≠ [] ∧ ts ≠ [] then
        .ok [("variable_name", v), ("mip_table", mt), ("model", mo),
             ("experiment", ex), ("ensemble_member", en), ("temporal_subset", ts)]
      else .error .pathError
    | [v, mt, mo, ex, en, ts, g] =>
      if v ≠ [] ∧ mt ≠ [] ∧ mo ≠ [] ∧ ex ≠ [] ∧ en ≠ [] ∧ ts ≠ [] ∧ g ≠ [] then
        .ok [("variable_name", v), ("mip_table", mt), ("model", mo),
             ("experiment", ex), ("ensemble_member", en), ("temporal_subset", ts),
             ("geographical_info", g)]
      else .error .pathError
    | _ => .error .pathError

/-- Does the mapping `d` already bind the key `k`? -/
def hasKey (d : State) (k : String) : Bool :=
  d.any (fun p => p.1 = k)

/-- Modelled from the spec: a full-path extraction yields one mapping, so the
directory-derived bindings and the filename-derived bindings must agree on the
names they share. -/
def metaConsistent (d f : State) : Bool :=
  f.all (fun p =>
    match d.find? (fun q => q.1 = p.1) with
    | some q => q.2 == p.2
    | none => true)

/-- Modelled from the spec: the single mapping produced by a full-path
extraction, directory-derived bindings first, then the filename-only ones. -/
def mergeMeta (d f : State) : State :=
  d ++ f.filter (fun p => ! hasKey d p.1)

/-- Modelled from the spec: `get_cmor_fp_meta` lives in `climdir/path.py`,
which is not among the sources.  Per the spec a standard path is the nine
standard-path segment values (non-empty, in fixed order) as path components,
ending with a grammar-conformant filename; shared names must carry one
consistent value. -/
def get_cmor_fp_meta (s : PyStr) : Except PyError State :=
  match pySplit '/' s with
  | [ac, pr, ins, mo, ex, fr, mr, vn, en, fn] =>
    if ac ≠ [] ∧ pr ≠ [] ∧ ins ≠ [] ∧ mo ≠ [] ∧ ex ≠ [] ∧ fr ≠ [] ∧ mr ≠ [] ∧
       vn ≠ [] ∧ en ≠ [] then
      match get_cmor_fname_meta fn with
      | .error e => .error e
      | .ok fmeta =>
        if metaConsistent
            [("activity", ac), ("product", pr), ("institute", ins),
             ("model", mo), ("experiment", ex), ("frequency", fr),
             ("modeling_realm", mr), ("variable_name", vn),
             ("ensemble_member", en)] fmeta then
          .ok (mergeMeta
            [("activity", ac), ("product", pr), ("institute", ins),
             ("model", mo), ("experiment", ex), ("frequency", fr),
             ("modeling_realm", mr), ("variable_name", vn),
             ("ensemble_member", en)] fmeta)
        else .error .pathError
    else .error .pathError
  | _ => .error .pathError

/-- Modelled from the spec: `get_datanode_fp_meta` lives in `climdir/path.py`,
which is not among the sources.  Same scheme as the standard path over the
eleven extended-path segment values. -/
def get_datanode_fp_meta (s : PyStr) : Except PyError State :=
  match pySplit '/' s with
  | [ac, pr, ins, mo, ex, fr, mr, mt, en, vr, vn, fn] =>
    if ac ≠ [] ∧ pr ≠ [] ∧ ins ≠ [] ∧ mo ≠ [] ∧ ex ≠ [] ∧ fr ≠ [] ∧ mr ≠ [] ∧
       mt ≠ [] ∧ en ≠ [] ∧ vr ≠ [] ∧ vn ≠ [] then
      match get_cmor_fname_meta fn with
      | .error e => .error e
      | .ok fmeta =>
        if metaConsistent
            [("activity", ac), ("product", pr), ("institute", ins),
             ("model", mo), ("experiment", ex), ("frequency", fr),
             ("modeling_realm", mr), ("mip_table", mt), ("ensemble_member", en),
             ("version_number", vr), ("variable_name", vn)] fmeta then
          .ok (mergeMeta
            [("activity", ac), ("product", pr), ("institute", ins),
             ("model", mo), ("experiment", ex), ("frequency", fr),
             ("modeling_realm", mr), ("mip_table", mt), ("ensemble_member", en),
             ("version_number", vr), ("variable_name", vn)] fmeta)
        else .error .pathError
    else .error .pathError
  | _ => .error .pathError

/-- `Cmip5File.__init__` called with exactly one extractor result and no
keyword data: the mapping is stored verbatim (`self.__dict__.update(meta)`),
then `_update_known_atts()` runs on an empty keyword set. -/
def initFromExtraction (meta : State) : State :=
  (updateKnownAtts meta []).1

/-! Supporting lemmas about split, join and path joining. -/

theorem pySplit_ne_nil (sep : Char) (s : List Char) : pySplit sep s ≠ [] := by
  cases s with
  | nil => simp [pySplit]
  | cons c cs =>
    simp only [pySplit]
    split
    · simp
    · cases h : pySplit sep cs <;> simp

theorem pyJoin_pySplit (sep : Char) (s : List Char) :
    pyJoin sep (pySplit sep s) = s := by
  induction s with
  | nil => rfl
  | cons c cs ih =>
    by_cases h : c = sep
    · subst h
      rw [show pySplit c (c :: cs) = [] :: pySplit c cs by simp [pySplit]]
      cases hr : pySplit c cs with
      | nil => exact absurd hr (pySplit_ne_nil c cs)
      | cons t ts =>
        rw [hr] at ih
        simpa [pyJoin] using ih
    · rw [show pySplit sep (c :: cs) =
            (match pySplit sep cs with
             | [] => [[c]]
             | t :: ts => (c :: t) :: ts) by simp [pySplit, h]]
      cases hr : pySplit sep cs with
      | nil => exact absurd hr (pySplit_ne_nil sep cs)
      | cons t ts =>
        rw [hr] at ih
        cases ts with
        | nil => simpa [pyJoin] using ih
        | cons u us =>
          simp only [pyJoin] at ih ⊢
          rw [List.cons_append, ih]

theorem not_mem_of_mem_pySplit (sep : Char) (s : List Char) :
    ∀ t ∈ pySplit sep s, sep ∉ t := by
  induction s with
  | nil => intro t ht; simp [pySplit] at ht; simp [ht]
  | cons c cs ih =>
    intro t ht
    by_cases h : c = sep
    · subst h
      rw [show pySplit c (c :: cs) = [] :: pySplit c cs by simp [pySplit],
          List.mem_cons] at ht
      rcases ht with ht | ht
      · simp [ht]
      · exact ih t ht
    · rw [show pySplit sep (c :: cs) =
            (match pySplit sep cs with
             | [] => [[c]]
             | t :: ts => (c :: t) :: ts) by simp [pySplit, h]] at ht
      cases hr : pySplit sep cs with
      | nil => exact absurd hr (pySplit_ne_nil sep cs)
      | cons t₀ ts =>
        rw [hr, List.mem_cons] at ht
        rcases ht with ht | ht
        · intro hmem
          rw [ht, List.mem_cons] at hmem
          rcases hmem with hmem | hmem
          · exact h hmem.symm
          · exact ih t₀ (hr ▸ List.mem_cons_self t₀ ts) hmem
        · exact ih t (hr ▸ List.mem_cons_of_mem t₀ ht)

theorem mem_of_getLast?_eq_some {α : Type} {l : List α} {a : α}
    (h : l.getLast? = some a) : a ∈ l := by
  cases l with
  | nil => simp at h
  | cons b bs =>
    rw [List.getLast?_eq_getLast_of_ne_nil (List.cons_ne_nil b bs)] at h
    injection h with h
    exact h ▸ List.getLast_mem (List.cons_ne_nil b bs)

theorem ospath_foldl_eq (parts : List PyStr) :
    ∀ acc : PyStr, acc ≠ [] → acc.getLast? ≠ some '/' →
    (∀ p ∈ parts, p ≠ [] ∧ '/' ∉ p) →
    parts.foldl ospath_join_acc acc = pyJoin '/' (acc :: parts) := by
  induction parts with
  | nil => intro acc _ _ _; rfl
  | cons p ps ih =>
    intro acc h1 h2 h3
    have hp := h3 p (List.mem_cons_self p ps)
    have hstep : ospath_join_acc acc p = acc ++ '/' :: p := by
      unfold ospath_join_acc
      rw [if_neg, if_neg]
      · rintro (hc | hc)
        · exact h1 hc
        · exact h2 hc
      · intro hc
        cases hq : p with
        | nil => exact hp.1 hq
        | cons q qs =>
          rw [hq] at hc
          simp at hc
          exact hp.2 (hq ▸ (hc ▸ List.mem_cons_self q qs))
    rw [List.foldl_cons, hstep, ih (acc ++ '/' :: p) (by simp) ?_ ?_]
    · cases ps with
      | nil => simp [pyJoin]
      | cons q qs => simp [pyJoin]
    · rw [List.getLast?_append_cons]
      cases hq : p with
      | nil => exact absurd hq hp.1
      | cons q qs =>
        rw [List.getLast?_cons_cons]
        intro hc
        exact hp.2 (hq ▸ mem_of_getLast?_eq_some hc)
    · intro r hr
      exact h3 r (List.mem_cons_of_mem p hr)

theorem getattrList_error_first (st : State) (pre : List String) (k : String)
    (post : List String) (hpre : ∀ j ∈ pre, (lookupAttr st j).isSome)
    (hk : lookupAttr st k = none) :
    getattrList st (pre ++ k :: post) = .error (.attributeError k) := by
  induction pre with
  | nil => simp [getattrList, getattr, hk]
  | cons j js ih =>
    obtain ⟨v, hv⟩ :=
      Option.isSome_iff_exists.mp (hpre j (List.mem_cons_self j js))
    have := ih (fun x hx => hpre x (List.mem_cons_of_mem j hx))
    simp [getattrList, getattr, hv, this]

theorem ospath_join_eq_pyJoin (parts : List PyStr) (hne : parts ≠ [])
    (hall : ∀ p ∈ parts, p ≠ [] ∧ '/' ∉ p) :
    ospath_join parts = pyJoin '/' parts := by
  cases parts with
  | nil => exact absurd rfl hne
  | cons p ps =>
    have hp := hall p (List.mem_cons_self p ps)
    exact ospath_foldl_eq ps p hp.1
      (fun hc => hp.2 (mem_of_getLast?_eq_some hc))
      (fun r hr => hall r (List.mem_cons_of_mem p hr))

theorem any_key_eq_true_of_lookup_some {st : State} {k : String} {w : PyStr}
    (h : lookupAttr st k = some w) : st.any (fun p => p.1 = k) = true := by
  rw [lookupAttr] at h
  cases hf : st.find? (fun p => p.1 = k) with
  | none => rw [hf] at h; simp at h
  | some q =>
    have h1 := List.find?_some hf
    have h2 := List.mem_of_find?_eq_some hf
    exact List.any_eq_true.mpr ⟨q, h2, h1⟩

theorem find?_key_eq_none_of_lookup_none {st : State} {k : String}
    (h : lookupAttr st k = none) :
    st.find? (fun p => p.1 = k) = none := by
  rw [lookupAttr] at h
  cases hf : st.find? (fun p => p.1 = k) with
  | none => rfl
  | some q => rw [hf] at h; simp at h

theorem any_key_eq_false_of_lookup_none {st : State} {k : String}
    (h : lookupAttr st k = none) : st.any (fun p => p.1 = k) = false := by
  rw [List.any_eq_false]
  intro p hp
  have := List.find?_eq_none.mp (find?_key_eq_none_of_lookup_none h) p hp
  simpa using this

theorem lookup_filter_self_none (st : State) (k : String) :
    lookupAttr (st.filter (fun p => p.1 ≠ k)) k = none := by
  have hf : List.find? (fun p => p.1 = k)
      (st.filter (fun p => p.1 ≠ k)) = none := by
    rw [List.find?_eq_none]
    intro p hp
    have := (List.mem_filter.mp hp).2
    simpa using this
  rw [lookupAttr, hf]
  rfl

theorem roundtrip_fname_aux (s : PyStr) (m : State)
    (h : get_cmor_fname_meta s = .ok m) : cmor_fname m = .ok s := by
  unfold get_cmor_fname_meta at h
  split at h
  · exact absurd h (by simp)
  · rename_i hcond
    push_neg at hcond
    obtain ⟨hlen, hdrop⟩ := hcond
    have hjoin : ∀ segs, pySplit '_' (s.take (s.length - 3)) = segs →
        pyJoin '_' segs ++ ".nc".toList = s := by
      intro segs hsegs
      rw [← hsegs, pyJoin_pySplit, ← hdrop, List.take_append_drop]
    split at h
    · rename_i v mt mo ex en hsegs
      split at h
      · injection h with h
        subst h
        rw [← hjoin [v, mt, mo, ex, en] hsegs]
        simp [cmor_fname, getattrList, getattr, lookupAttr,
          CMOR_FNAME_REQUIRED_ATTS, CMOR_FNAME_OPTIONAL_ATTS, List.find?]
      · exact absurd h (by simp)
    · rename_i v mt mo ex en ts hsegs
      split at h
      · injection h with h
        subst h
        rw [← hjoin [v, mt, mo, ex, en, ts] hsegs]
        simp [cmor_fname, getattrList, getattr, lookupAttr,
          CMOR_FNAME_REQUIRED_ATTS, CMOR_FNAME_OPTIONAL_ATTS, List.find?]
      · exact absurd h (by simp)
    · rename_i v mt mo ex en ts g hsegs
      split at h
      · injection h with h
        subst h
        rw [← hjoin [v, mt, mo, ex, en, ts, g] hsegs]
        simp [cmor_fname, getattrList, getattr, lookupAttr,
          CMOR_FNAME_REQUIRED_ATTS, CMOR_FNAME_OPTIONAL_ATTS, List.find?]
      · exact absurd h (by simp)
    · exact absurd h (by simp)

theorem roundtrip_cmorfp_aux (s : PyStr) (m : State)
    (h : get_cmor_fp_meta s = .ok m) : cmor_fp m = .ok s := by
  unfold get_cmor_fp_meta at h
  split at h
  · rename_i ac pr ins mo ex fr mr vn en fn hcomps
    split at h
    · rename_i hne
      obtain ⟨hac, hpr, hins, hmo, hex, hfr, hmr, hvn, hen⟩ := hne
      split at h
      · exact absurd h (by simp)
      · rename_i fmeta hfm
        split at h
        · rename_i hcons
          injection h with h
          subst h
          unfold get_cmor_fname_meta at hfm
          split at hfm
          · exact absurd hfm (by simp)
          · rename_i hfncond
            push_neg at hfncond
            obtain ⟨hfnlen, hfndrop⟩ := hfncond
            have hfne : fn ≠ [] := by
              intro hfn0
              rw [hfn0] at hfnlen
              simp at hfnlen
            have hsub : ∀ p ∈ pySplit '/' s, '/' ∉ p :=
              not_mem_of_mem_pySplit '/' s
            rw [hcomps] at hsub
            have hparts :
                ∀ p ∈ [ac, pr, ins, mo, ex, fr, mr, vn, en, fn],
                  p ≠ [] ∧ '/' ∉ p := by
              intro p hp
              have hslash := hsub p hp
              simp only [List.mem_cons, List.not_mem_nil, or_false] at hp
              rcases hp with rfl | rfl | rfl | rfl | rfl | rfl | rfl | rfl |
                rfl | rfl <;> exact ⟨by assumption, hslash⟩
            have hops :
                ospath_join ([ac, pr, ins, mo, ex, fr, mr, vn, en] ++ [fn]) =
                  pyJoin '/' [ac, pr, ins, mo, ex, fr, mr, vn, en, fn] :=
              ospath_join_eq_pyJoin _ (by simp) hparts
            rw [show s = pyJoin '/' [ac, pr, ins, mo, ex, fr, mr, vn, en, fn]
                  from by rw [← hcomps, pyJoin_pySplit], ← hops]
            split at hfm
            · rename_i v mt mo' ex' en' hsegs
              split at hfm
              · injection hfm with hfm
                subst hfm
                simp [metaConsistent, List.find?] at hcons
                obtain ⟨hv, hmo2, hex2, hen2⟩ := hcons
                subst hv; subst hmo2; subst hex2; subst hen2
                rw [show fn = pyJoin '_' [vn, mt, mo, ex, en] ++ ".nc".toList
                      from by rw [← hsegs, pyJoin_pySplit, ← hfndrop,
                                  List.take_append_drop]]
                simp [mergeMeta, hasKey, cmor_fp, get_joined_file_path,
                  getattrList, getattr, lookupAttr, CMOR_FP_ATTS, cmor_fname,
                  CMOR_FNAME_REQUIRED_ATTS, CMOR_FNAME_OPTIONAL_ATTS,
                  List.find?]
              · exact absurd hfm (by simp)
            · rename_i v mt mo' ex' en' ts hsegs
              split at hfm
              · injection hfm with hfm
                subst hfm
                simp [metaConsistent, List.find?] at hcons
                obtain ⟨hv, hmo2, hex2, hen2⟩ := hcons
                subst hv; subst hmo2; subst hex2; subst hen2
                rw [show fn =
                      pyJoin '_' [vn, mt, mo, ex, en, ts] ++ ".nc".toList
                      from by rw [← hsegs, pyJoin_pySplit, ← hfndrop,
                                  List.take_append_drop]]
                simp [mergeMeta, hasKey, cmor_fp, get_joined_file_path,
                  getattrList, getattr, lookupAttr, CMOR_FP_ATTS, cmor_fname,
                  CMOR_FNAME_REQUIRED_ATTS, CMOR_FNAME_OPTIONAL_ATTS,
                  List.find?]
              · exact absurd hfm (by simp)
            · rename_i v mt mo' ex' en' ts g hsegs
              split at hfm
              · injection hfm with hfm
                subst hfm
                simp [metaConsistent, List.find?] at hcons
                obtain ⟨hv, hmo2, hex2, hen2⟩ := hcons
                subst hv; subst hmo2; subst hex2; subst hen2
                rw [show fn =
                      pyJoin '_' [vn, mt, mo, ex, en, ts, g] ++ ".nc".toList
                      from by rw [← hsegs, pyJoin_pySplit, ← hfndrop,
                                  List.take_append_drop]]
                simp [mergeMeta, hasKey, cmor_fp, get_joined_file_path,
                  getattrList, getattr, lookupAttr, CMOR_FP_ATTS, cmor_fname,
                  CMOR_FNAME_REQUIRED_ATTS, CMOR_FNAME_OPTIONAL_ATTS,
                  List.find?]
              · exact absurd hfm (by simp)
            · exact absurd hfm (by simp)
        · exact absurd h (by simp)
    · exact absurd h (by simp)
  · exact absurd h (by simp)

theorem roundtrip_datanodefp_aux (s : PyStr) (m : State)
    (h : get_datanode_fp_meta s = .ok m) : datanode_fp m = .ok s := by
  unfold get_datanode_fp_meta at h
  split at h
  · rename_i ac pr ins mo ex fr mr mt en vr vn fn hcomps
    split at h
    · rename_i hne
      obtain ⟨hac, hpr, hins, hmo, hex, hfr, hmr, hmt, hen, hvr, hvn⟩ := hne
      split at h
      · exact absurd h (by simp)
      · rename_i fmeta hfm
        split at h
        · rename_i hcons
          injection h with h
          subst h
          unfold get_cmor_fname_meta at hfm
          split at hfm
          · exact absurd hfm (by simp)
          · rename_i hfncond
            push_neg at hfncond
            obtain ⟨hfnlen, hfndrop⟩ := hfncond
            have hfne : fn ≠ [] := by
              intro hfn0
              rw [hfn0] at hfnlen
              simp at hfnlen
            have hsub : ∀ p ∈ pySplit '/' s, '/' ∉ p :=
              not_mem_of_mem_pySplit '/' s
            rw [hcomps] at hsub
            have hparts :
                ∀ p ∈ [ac, pr, ins, mo, ex, fr, mr, mt, en, vr, vn, fn],
                  p ≠ [] ∧ '/' ∉ p := by
              intro p hp
              have hslash := hsub p hp
              simp only [List.mem_cons, List.not_mem_nil, or_false] at hp
              rcases hp with rfl | rfl | rfl | rfl | rfl | rfl | rfl | rfl |
                rfl | rfl | rfl | rfl <;> exact ⟨by assumption, hslash⟩
            have hops :
                ospath_join
                  ([ac, pr, ins, mo, ex, fr, mr, mt, en, vr, vn] ++ [fn]) =
                  pyJoin '/' [ac, pr, ins, mo, ex, fr, mr, mt, en, vr, vn, fn] :=
              ospath_join_eq_pyJoin _ (by simp) hparts
            rw [show s =
                  pyJoin '/' [ac, pr, ins, mo, ex, fr, mr, mt, en, vr, vn, fn]
                  from by rw [← hcomps, pyJoin_pySplit], ← hops]
            split at hfm
            · rename_i v mt' mo' ex' en' hsegs
              split at hfm
              · injection hfm with hfm
                subst hfm
                simp [metaConsistent, List.find?] at hcons
                obtain ⟨hv, hmt2, hmo2, hex2, hen2⟩ := hcons
                subst hv; subst hmt2; subst hmo2; subst hex2; subst hen2
                rw [show fn = pyJoin '_' [vn, mt, mo, ex, en] ++ ".nc".toList
                      from by rw [← hsegs, pyJoin_pySplit, ← hfndrop,
                                  List.take_append_drop]]
                simp [mergeMeta, hasKey, datanode_fp, get_joined_file_path,
                  getattrList, getattr, lookupAttr, DATANODE_FP_ATTS, cmor_fname,
                  CMOR_FNAME_REQUIRED_ATTS, CMOR_FNAME_OPTIONAL_ATTS,
                  List.find?]
              · exact absurd hfm (by simp)
            · rename_i v mt' mo' ex' en' ts hsegs
              split at hfm
              · injection hfm with hfm
                subst hfm
                simp [metaConsistent, List.find?] at hcons
                obtain ⟨hv, hmt2, hmo2, hex2, hen2⟩ := hcons
                subst hv; subst hmt2; subst hmo2; subst hex2; subst hen2
                rw [show fn =
                      pyJoin '_' [vn, mt, mo, ex, en, ts] ++ ".nc".toList
                      from by rw [← hsegs, pyJoin_pySplit, ← hfndrop,
                                  List.take_append_drop]]
                simp [mergeMeta, hasKey, datanode_fp, get_joined_file_path,
                  getattrList, getattr, lookupAttr, DATANODE_FP_ATTS, cmor_fname,
                  CMOR_FNAME_REQUIRED_ATTS, CMOR_FNAME_OPTIONAL_ATTS,
                  List.find?]
              · exact absurd hfm (by simp)
            · rename_i v mt' mo' ex' en' ts g hsegs
              split at hfm
              · injection hfm with hfm
                subst hfm
                simp [metaConsistent, List.find?] at hcons
                obtain ⟨hv, hmt2, hmo2, hex2, hen2⟩ := hcons
                subst hv; subst hmt2; subst hmo2; subst hex2; subst hen2
                rw [show fn =
                      pyJoin '_' [vn, mt, mo, ex, en, ts, g] ++ ".nc".toList
                      from by rw [← hsegs, pyJoin_pySplit, ← hfndrop,
                                  List.take_append_drop]]
                simp [mergeMeta, hasKey, datanode_fp, get_joined_file_path,
                  getattrList, getattr, lookupAttr, DATANODE_FP_ATTS, cmor_fname,
                  CMOR_FNAME_REQUIRED_ATTS, CMOR_FNAME_OPTIONAL_ATTS,
                  List.find?]
              · exact absurd hfm (by simp)
            · exact absurd hfm (by simp)
        · exact absurd h (by simp)
    · exact absurd h (by simp)
  · exact absurd h (by simp)

/-! The claims. -/

/-- C1: for every record built solely by extracting a grammar-conformant raw
string `s` through one encoding's matching extractor (standard path, extended
path, or filename), re-running that encoding's generator on the record
reproduces `s` exactly. -/
theorem C1_roundtrip :
    (∀ (s : PyStr) (m : State), get_cmor_fname_meta s = .ok m →
      cmor_fname (initFromExtraction m) = .ok s) ∧
    (∀ (s : PyStr) (m : State), get_cmor_fp_meta s = .ok m →
      cmor_fp (initFromExtraction m) = .ok s) ∧
    (∀ (s : PyStr) (m : State), get_datanode_fp_meta s = .ok m →
      datanode_fp (initFromExtraction m) = .ok s) :=
  ⟨fun s m h => roundtrip_fname_aux s m h,
   fun s m h => roundtrip_cmorfp_aux s m h,
   fun s m h => roundtrip_datanodefp_aux s m h⟩

/-- C1 witness: each of the three codecs round-trips a concrete conformant
string. -/
theorem C1_roundtrip_witness :
    cmor_fname (initFromExtraction
      [("variable_name", "tas".toList), ("mip_table", "Amon".toList),
       ("model", "HadGEM2-ES".toList), ("experiment", "rcp45".toList),
       ("ensemble_member", "r1i1p1".toList),
       ("temporal_subset", "200601-210012".toList)]) =
      .ok "tas_Amon_HadGEM2-ES_rcp45_r1i1p1_200601-210012.nc".toList ∧
    cmor_fp (initFromExtraction
      [("activity", "CMIP5".toList), ("product", "output".toList),
       ("institute", "MOHC".toList), ("model", "HadGEM2-ES".toList),
       ("experiment", "rcp45".toList), ("frequency", "mon".toList),
       ("modeling_realm", "atmos".toList), ("variable_name", "tas".toList),
       ("ensemble_member", "r1i1p1".toList), ("mip_table", "Amon".toList)]) =
      .ok ("CMIP5/output/MOHC/HadGEM2-ES/rcp45/mon/atmos/tas/r1i1p1/" ++
        "tas_Amon_HadGEM2-ES_rcp45_r1i1p1.nc").toList ∧
    datanode_fp (initFromExtraction
      [("activity", "CMIP5".toList), ("product", "output".toList),
       ("institute", "MOHC".toList), ("model", "HadGEM2-ES".toList),
       ("experiment", "rcp45".toList), ("frequency", "mon".toList),
       ("modeling_realm", "atmos".toList), ("mip_table", "Amon".toList),
       ("ensemble_member", "r1i1p1".toList),
       ("version_number", "v20111128".toList),
       ("variable_name", "tas".toList)]) =
      .ok ("CMIP5/output/MOHC/HadGEM2-ES/rcp45/mon/atmos/Amon/r1i1p1/" ++
        "v20111128/tas/tas_Amon_HadGEM2-ES_rcp45_r1i1p1.nc").toList :=
  ⟨C1_roundtrip.1 "tas_Amon_HadGEM2-ES_rcp45_r1i1p1_200601-210012.nc".toList
      _ (by decide),
   C1_roundtrip.2.1 ("CMIP5/output/MOHC/HadGEM2-ES/rcp45/mon/atmos/tas/" ++
      "r1i1p1/tas_Amon_HadGEM2-ES_rcp45_r1i1p1.nc").toList _ (by decide),
   C1_roundtrip.2.2 ("CMIP5/output/MOHC/HadGEM2-ES/rcp45/mon/atmos/Amon/" ++
      "r1i1p1/v20111128/tas/tas_Amon_HadGEM2-ES_rcp45_r1i1p1.nc").toList
      _ (by decide)⟩

/-- C2 counterexample: `update` on an empty record with the mapping
`{model: "X", bogus: "Y"}` raises the unknown-field error on `bogus`, yet the
record is not left unchanged — `model` has already been set to `"X"`. -/
theorem C2_counterexample :
    update ([] : State) [("model", "X".toList), ("bogus", "Y".toList)] =
      ([("model", "X".toList)], some (.unknownField "bogus")) ∧
    lookupAttr (update ([] : State)
      [("model", "X".toList), ("bogus", "Y".toList)]).1 "model" =
      some "X".toList ∧
    (update ([] : State) [("model", "X".toList), ("bogus", "Y".toList)]).1 ≠
      ([] : State) := by
  refine ⟨by decide, by decide, by decide⟩

/-- C2 (amended): supplied names are validated one at a time, in mapping
order, interleaved with the mutations; the first unknown name makes the call
fail with the unknown-field error naming it, but the mutations for the names
before it have already been applied and remain in place.  In particular
`update({model: "X", bogus: "Y"})` fails naming `bogus` and leaves `model`
set to `"X"`. -/
theorem C2_update_not_atomic (k : String) (v : PyStr)
    (rest : List (String × PyStr)) (hk : k ∉ ATTR_KEYS) :
    ∀ (pre : List (String × PyStr)) (st : State),
      (∀ p ∈ pre, p.1 ∈ ATTR_KEYS) →
      (updateKnownAtts st pre).2 = none →
      update st (pre ++ (k, v) :: rest) =
        ((updateKnownAtts st pre).1, some (.unknownField k)) := by
  intro pre
  induction pre with
  | nil =>
    intro st _ _
    simp [update, updateKnownAtts, hk]
  | cons q js ih =>
    intro st hpre hnone
    obtain ⟨k₀, v₀⟩ := q
    have hk₀ : k₀ ∈ ATTR_KEYS := hpre (k₀, v₀) (List.mem_cons_self _ _)
    by_cases hv : v₀ = []
    · cases hd : py_delattr st k₀ with
      | error e =>
        rw [show updateKnownAtts st ((k₀, v₀) :: js) = (st, some e) by
              simp [updateKnownAtts, hk₀, hv, hd]] at hnone
        simp at hnone
      | ok st₁ =>
        have heq : updateKnownAtts st ((k₀, v₀) :: js) = updateKnownAtts st₁ js := by
          simp [updateKnownAtts, hk₀, hv, hd]
        rw [show update st (((k₀, v₀) :: js) ++ (k, v) :: rest) =
              updateKnownAtts st₁ (js ++ (k, v) :: rest) by
              simp [update, updateKnownAtts, hk₀, hv, hd], heq]
        exact ih st₁ (fun p hp => hpre p (List.mem_cons_of_mem _ hp)) (heq ▸ hnone)
    · cases hd : py_setattr st k₀ v₀ with
      | error e =>
        rw [show updateKnownAtts st ((k₀, v₀) :: js) = (st, some e) by
              simp [updateKnownAtts, hk₀, hv, hd]] at hnone
        simp at hnone
      | ok st₁ =>
        have heq : updateKnownAtts st ((k₀, v₀) :: js) = updateKnownAtts st₁ js := by
          simp [updateKnownAtts, hk₀, hv, hd]
        rw [show update st (((k₀, v₀) :: js) ++ (k, v) :: rest) =
              updateKnownAtts st₁ (js ++ (k, v) :: rest) by
              simp [update, updateKnownAtts, hk₀, hv, hd], heq]
        exact ih st₁ (fun p hp => hpre p (List.mem_cons_of_mem _ hp)) (heq ▸ hnone)

/-- C2 witness: the amended statement at the claim's own example. -/
theorem C2_update_not_atomic_witness :
    update ([] : State) [("model", "X".toList), ("bogus", "Y".toList)] =
      ((updateKnownAtts ([] : State) [("model", "X".toList)]).1,
        some (.unknownField "bogus")) :=
  C2_update_not_atomic "bogus" "Y".toList [] (by decide)
    [("model", "X".toList)] [] (by decide) (by decide)

/-- C5: whenever `temporal_subset` is stored (with a truthy value — the only
kind the mutation path can store), the three derived views re-parse it:
segment 0 of its hyphen-split is the `t_start` getter's result, segment 1
(when it exists) the `t_end` getter's result, and segment 2 (when it exists)
the `temporal_suffix` getter's result.  The statement quantifies over every
record state, so the correspondence holds at all times and is preserved by
every operation: the derived fields are never stored independently. -/
theorem C5_temporal_invariant :
    ∀ (st : State) (ts : PyStr), lookupAttr st "temporal_subset" = some ts →
      ts ≠ [] →
      (∀ h0 : 0 < (pySplit '-' ts).length,
        t_start_get st = .ok (some ((pySplit '-' ts).get ⟨0, h0⟩))) ∧
      (∀ h1 : 1 < (pySplit '-' ts).length,
        t_end_get st = .ok (some ((pySplit '-' ts).get ⟨1, h1⟩))) ∧
      (∀ h2 : 2 < (pySplit '-' ts).length,
        temporal_suffix_get st = .ok (some ((pySplit '-' ts).get ⟨2, h2⟩))) := by
  intro st ts hlook hne
  have hg : getattr st "temporal_subset" = .ok ts := by simp [getattr, hlook]
  refine ⟨?_, ?_, ?_⟩
  · intro h0
    simp [t_start_get, hg, hne, listGet, List.getElem?_eq_getElem h0]
  · intro h1
    simp [t_end_get, hg, hne, listGet, List.getElem?_eq_getElem h1]
  · intro h2
    simp [temporal_suffix_get, hg, hne, h2, listGet, List.getElem?_eq_getElem h2]

/-- C5 witness: the three views at a record with a three-segment
`temporal_subset`. -/
theorem C5_temporal_invariant_witness :
    t_start_get [("temporal_subset", "200601-210012-clim".toList)] =
      .ok (some "200601".toList) ∧
    t_end_get [("temporal_subset", "200601-210012-clim".toList)] =
      .ok (some "210012".toList) ∧
    temporal_suffix_get [("temporal_subset", "200601-210012-clim".toList)] =
      .ok (some "clim".toList) :=
  ⟨((C5_temporal_invariant [("temporal_subset", "200601-210012-clim".toList)]
      "200601-210012-clim".toList (by decide) (by decide)).1
      (by decide)).trans (by decide),
   ((C5_temporal_invariant [("temporal_subset", "200601-210012-clim".toList)]
      "200601-210012-clim".toList (by decide) (by decide)).2.1
      (by decide)).trans (by decide),
   ((C5_temporal_invariant [("temporal_subset", "200601-210012-clim".toList)]
      "200601-210012-clim".toList (by decide) (by decide)).2.2
      (by decide)).trans (by decide)⟩

/-- C6: starting from `temporal_subset = "200601-210012"`, setting `t_start`
to `"200001"` yields `temporal_subset = "200001-210012"`; then setting
`temporal_suffix` to `"clim"` yields `temporal_subset = "200001-210012-clim"`
and the `temporal_suffix` getter returns `"clim"`.  In general the
`temporal_suffix` setter appends a third segment when none exists and
replaces it when a (truthy) one does. -/
theorem C6_temporal_setters :
    t_start_set [("temporal_subset", "200601-210012".toList)] "200001".toList =
      .ok [("temporal_subset", "200001-210012".toList)] ∧
    temporal_suffix_set [("temporal_subset", "200001-210012".toList)]
        "clim".toList =
      .ok [("temporal_subset", "200001-210012-clim".toList)] ∧
    temporal_suffix_get [("temporal_subset", "200001-210012-clim".toList)] =
      .ok (some "clim".toList) ∧
    (∀ (st : State) (ts value : PyStr),
      lookupAttr st "temporal_subset" = some ts → ts ≠ [] →
      temporal_suffix_get st = .ok none →
      temporal_suffix_set st value =
        .ok (dictSet st "temporal_subset"
          (pyJoin '-' (pySplit '-' ts ++ [value])))) ∧
    (∀ (st : State) (ts value s : PyStr),
      lookupAttr st "temporal_subset" = some ts → ts ≠ [] →
      temporal_suffix_get st = .ok (some s) → s ≠ [] →
      temporal_suffix_set st value =
        .ok (dictSet st "temporal_subset"
          (pyJoin '-' ((pySplit '-' ts).set 2 value)))) := by
  refine ⟨by decide, by decide, by decide, ?_, ?_⟩
  · intro st ts value hlook hne hsuf
    have hg : getattr st "temporal_subset" = .ok ts := by simp [getattr, hlook]
    simp [temporal_suffix_set, hg, hne, hsuf]
  · intro st ts value s hlook hne hsuf hs
    have hg : getattr st "temporal_subset" = .ok ts := by simp [getattr, hlook]
    by_cases hlen : 2 < (pySplit '-' ts).length
    · simp [temporal_suffix_set, hg, hne, hsuf, hs, listSet, hlen]
    · rw [show temporal_suffix_get st = .ok none by
            simp [temporal_suffix_get, hg, hne, hlen]] at hsuf
      simp at hsuf

/-- C6 witness: the suffix-append clause at a two-segment subset and the
suffix-replace clause at a three-segment subset. -/
theorem C6_temporal_setters_witness :
    temporal_suffix_set [("temporal_subset", "200001-210012".toList)]
        "clim2".toList =
      .ok (dictSet [("temporal_subset", "200001-210012".toList)]
        "temporal_subset"
        (pyJoin '-' (pySplit '-' "200001-210012".toList ++ ["clim2".toList]))) ∧
    temporal_suffix_set [("temporal_subset", "200001-210012-clim".toList)]
        "avg".toList =
      .ok (dictSet [("temporal_subset", "200001-210012-clim".toList)]
        "temporal_subset"
        (pyJoin '-' ((pySplit '-' "200001-210012-clim".toList).set 2
          "avg".toList))) :=
  ⟨C6_temporal_setters.2.2.2.1 [("temporal_subset", "200001-210012".toList)]
      "200001-210012".toList "clim2".toList (by decide) (by decide) (by decide),
   C6_temporal_setters.2.2.2.2 [("temporal_subset", "200001-210012-clim".toList)]
      "200001-210012-clim".toList "avg".toList "clim".toList (by decide)
      (by decide) (by decide) (by decide)⟩

/-- C7: a vocabulary name supplied to `update` with a falsy value is removed
from storage, not stored falsy: for every record on which a plain (stored)
vocabulary field is set, updating it with the empty string succeeds and
leaves it unstored; in particular, after `update({experiment: ""})` on a
record with `experiment` set, a later `cmor_fname` call fails with the
missing-field error naming `experiment`. -/
theorem C7_falsy_deletion :
    (∀ (st : State) (k : String) (w : PyStr),
      k ∈ ATTR_KEYS → k ∉ PROPERTY_ATTS → lookupAttr st k = some w →
      (update st [(k, [])]).2 = none ∧
      lookupAttr (update st [(k, [])]).1 k = none) ∧
    update
      [("variable_name", "tas".toList), ("mip_table", "Amon".toList),
       ("model", "HadGEM2-ES".toList), ("experiment", "rcp45".toList),
       ("ensemble_member", "r1i1p1".toList)] [("experiment", [])] =
      ([("variable_name", "tas".toList), ("mip_table", "Amon".toList),
        ("model", "HadGEM2-ES".toList),
        ("ensemble_member", "r1i1p1".toList)], none) ∧
    cmor_fname
      [("variable_name", "tas".toList), ("mip_table", "Amon".toList),
       ("model", "HadGEM2-ES".toList),
       ("ensemble_member", "r1i1p1".toList)] =
      .error (.attributeError "experiment") := by
  refine ⟨?_, by decide, by decide⟩
  intro st k w hks hkp hlook
  have hany := any_key_eq_true_of_lookup_some hlook
  have hupd : update st [(k, [])] =
      (st.filter (fun p => p.1 ≠ k), none) := by
    simp [update, updateKnownAtts, hks, py_delattr, hkp, hany]
  rw [hupd]
  exact ⟨rfl, lookup_filter_self_none st k⟩

/-- C7 witness: the deletion clause at a record with `experiment` stored. -/
theorem C7_falsy_deletion_witness :
    (update [("experiment", "rcp45".toList)] [("experiment", [])]).2 = none ∧
    lookupAttr (update [("experiment", "rcp45".toList)]
      [("experiment", [])]).1 "experiment" = none :=
  C7_falsy_deletion.1 [("experiment", "rcp45".toList)] "experiment"
    "rcp45".toList (by decide) (by decide) (by decide)

/-- C8: for every name outside the closed vocabulary and every value, truthy
or falsy, `update` fails with the unknown-field error naming that key and
leaves the record unchanged: the unknown-name check runs before the
falsy-deletion rule. -/
theorem C8_unknown_rejection :
    ∀ (st : State) (k : String) (v : PyStr), k ∉ ATTR_KEYS →
      update st [(k, v)] = (st, some (.unknownField k)) := by
  intro st k v hk
  simp [update, updateKnownAtts, hk]

/-- C8 witness: an unknown name rejected with a falsy and with a truthy
value. -/
theorem C8_unknown_rejection_witness :
    update [("model", "X".toList)] [("bogus", [])] =
      ([("model", "X".toList)], some (.unknownField "bogus")) ∧
    update [("model", "X".toList)] [("bogus", "Y".toList)] =
      ([("model", "X".toList)], some (.unknownField "bogus")) :=
  ⟨C8_unknown_rejection [("model", "X".toList)] "bogus" [] (by decide),
   C8_unknown_rejection [("model", "X".toList)] "bogus" "Y".toList (by decide)⟩

/-- C9: on a record with no stored `temporal_subset`, every derived temporal
access — the three getters and the three setters — fails with the
attribute-not-found error (naming `temporal_subset`), because each reads
`temporal_subset` unconditionally first; none returns an absent value or
silently no-ops. -/
theorem C9_unset_temporal_subset :
    ∀ st : State, lookupAttr st "temporal_subset" = none →
      t_start_get st = .error (.attributeError "temporal_subset") ∧
      t_end_get st = .error (.attributeError "temporal_subset") ∧
      temporal_suffix_get st = .error (.attributeError "temporal_subset") ∧
      (∀ v, t_start_set st v = .error (.attributeError "temporal_subset")) ∧
      (∀ v, t_end_set st v = .error (.attributeError "temporal_subset")) ∧
      (∀ v, temporal_suffix_set st v =
        .error (.attributeError "temporal_subset")) := by
  intro st h
  have hg : getattr st "temporal_subset" =
      .error (.attributeError "temporal_subset") := by
    simp [getattr, h]
  exact ⟨by simp [t_start_get, hg], by simp [t_end_get, hg],
         by simp [temporal_suffix_get, hg],
         fun v => by simp [t_start_set, set_timeval, hg],
         fun v => by simp [t_end_set, set_timeval, hg],
         fun v => by simp [temporal_suffix_set, hg]⟩

/-- C9 witness: a getter and a setter at the empty record. -/
theorem C9_unset_temporal_subset_witness :
    t_start_get ([] : State) = .error (.attributeError "temporal_subset") ∧
    temporal_suffix_set ([] : State) "clim".toList =
      .error (.attributeError "temporal_subset") :=
  ⟨(C9_unset_temporal_subset [] (by decide)).1,
   (C9_unset_temporal_subset [] (by decide)).2.2.2.2.2 "clim".toList⟩

/-- C10: deleting a vocabulary field that is not currently stored (via
`delete` or via `update` with a falsy value) fails with the
attribute-not-found error naming it, so deletion is not idempotent: on a
stored plain field the first delete succeeds and the second fails. -/
theorem C10_delete_absent :
    (∀ (st : State) (k : String), k ∈ ATTR_KEYS → lookupAttr st k = none →
      update st [(k, [])] = (st, some (.attributeError k)) ∧
      delete st [k] = (st, some (.attributeError k))) ∧
    (∀ (st : State) (k : String) (w : PyStr),
      k ∈ ATTR_KEYS → k ∉ PROPERTY_ATTS → lookupAttr st k = some w →
      (delete st [k]).2 = none ∧
      delete (delete st [k]).1 [k] =
        ((delete st [k]).1, some (.attributeError k))) := by
  constructor
  · intro st k hks hlook
    have hany := any_key_eq_false_of_lookup_none hlook
    by_cases hkp : k ∈ PROPERTY_ATTS
    · constructor <;> simp [update, delete, updateKnownAtts, hks, py_delattr, hkp]
    · constructor <;>
        simp [update, delete, updateKnownAtts, hks, py_delattr, hkp, hany]
  · intro st k w hks hkp hlook
    have hany := any_key_eq_true_of_lookup_some hlook
    have hdel : delete st [k] = (st.filter (fun p => p.1 ≠ k), none) := by
      simp [delete, updateKnownAtts, hks, py_delattr, hkp, hany]
    have hnone := lookup_filter_self_none st k
    have hany₂ := any_key_eq_false_of_lookup_none hnone
    rw [hdel]
    exact ⟨rfl, by simp [delete, updateKnownAtts, hks, py_delattr, hkp, hany₂]⟩

/-- C10 witness: both clauses at `experiment` — deleting it when absent
fails; after deleting it when stored, deleting again fails. -/
theorem C10_delete_absent_witness :
    delete ([] : State) ["experiment"] =
      ([], some (.attributeError "experiment")) ∧
    (delete [("experiment", "rcp45".toList)] ["experiment"]).2 = none ∧
    delete (delete [("experiment", "rcp45".toList)] ["experiment"]).1
        ["experiment"] =
      ((delete [("experiment", "rcp45".toList)] ["experiment"]).1,
        some (.attributeError "experiment")) :=
  ⟨(C10_delete_absent.1 [] "experiment" (by decide) (by decide)).2,
   (C10_delete_absent.2 [("experiment", "rcp45".toList)] "experiment"
      "rcp45".toList (by decide) (by decide) (by decide)).1,
   (C10_delete_absent.2 [("experiment", "rcp45".toList)] "experiment"
      "rcp45".toList (by decide) (by decide) (by decide)).2⟩

/-- C3: when all five filename-required fields are stored, `cmor_fname`
returns their values (`variable_name`, `mip_table`, `model`, `experiment`,
`ensemble_member`) joined with `'_'`, followed by each present optional field
(`temporal_subset` then `geographical_info`) in that order, followed by the
literal `.nc` suffix; a missing required field makes it fail with the
missing-field error naming that field (the first absent one in required
order); on the concrete field set of the claim it returns exactly
`tas_Amon_HadGEM2-ES_rcp45_r1i1p1_200601-210012.nc`. -/
theorem C3_cmor_fname :
    (∀ (st : State) (v1 v2 v3 v4 v5 : PyStr) (ots og : Option PyStr),
      lookupAttr st "variable_name" = some v1 →
      lookupAttr st "mip_table" = some v2 →
      lookupAttr st "model" = some v3 →
      lookupAttr st "experiment" = some v4 →
      lookupAttr st "ensemble_member" = some v5 →
      lookupAttr st "temporal_subset" = ots →
      lookupAttr st "geographical_info" = og →
      cmor_fname st =
        .ok (pyJoin '_' ([v1, v2, v3, v4, v5] ++ ots.toList ++ og.toList)
             ++ ".nc".toList)) ∧
    (∀ (st : State) (pre : List String) (k : String) (post : List String),
      CMOR_FNAME_REQUIRED_ATTS = pre ++ k :: post →
      (∀ j ∈ pre, (lookupAttr st j).isSome) →
      lookupAttr st k = none →
      cmor_fname st = .error (.attributeError k)) ∧
    cmor_fname
      [("variable_name", "tas".toList), ("mip_table", "Amon".toList),
       ("model", "HadGEM2-ES".toList), ("experiment", "rcp45".toList),
       ("ensemble_member", "r1i1p1".toList),
       ("temporal_subset", "200601-210012".toList)] =
      .ok "tas_Amon_HadGEM2-ES_rcp45_r1i1p1_200601-210012.nc".toList := by
  refine ⟨?_, ?_, by decide⟩
  · intro st v1 v2 v3 v4 v5 ots og h1 h2 h3 h4 h5 h6 h7
    cases ots <;> cases og <;>
      simp [cmor_fname, getattrList, getattr, CMOR_FNAME_REQUIRED_ATTS,
            CMOR_FNAME_OPTIONAL_ATTS, List.filterMap, h1, h2, h3, h4, h5, h6, h7]
  · intro st pre k post hsplit hpre hk
    simp only [cmor_fname, hsplit, getattrList_error_first st pre k post hpre hk]

/-- C3 witness: the success clause at a fully populated record, and the error
clause at a record missing `experiment` with the earlier required fields
present. -/
theorem C3_cmor_fname_witness :
    cmor_fname
      [("variable_name", "tas".toList), ("mip_table", "Amon".toList),
       ("model", "HadGEM2-ES".toList), ("experiment", "rcp45".toList),
       ("ensemble_member", "r1i1p1".toList),
       ("temporal_subset", "200601-210012".toList)] =
      .ok (pyJoin '_'
            (["tas".toList, "Amon".toList, "HadGEM2-ES".toList, "rcp45".toList,
              "r1i1p1".toList] ++ (some "200601-210012".toList).toList ++
              (none : Option PyStr).toList) ++ ".nc".toList) ∧
    cmor_fname
      [("variable_name", "tas".toList), ("mip_table", "Amon".toList),
       ("model", "HadGEM2-ES".toList),
       ("ensemble_member", "r1i1p1".toList)] =
      .error (.attributeError "experiment") :=
  ⟨C3_cmor_fname.1 _ _ _ _ _ _ _ _ (by decide) (by decide) (by decide)
      (by decide) (by decide) (by decide) (by decide),
   C3_cmor_fname.2.1 _ ["variable_name", "mip_table", "model"] "experiment"
      ["ensemble_member"] (by decide) (by decide) (by decide)⟩

/-- C4: with the needed segment fields present, the standard-path encoder
joins the nine standard-path segment values (fixed order) as successive path
components and appends the filename encoder's output as the final component;
the extended-path encoder does the same over its eleven segment fields; a
missing segment field makes either encoder fail with the missing-field error
naming that field (the first absent one in segment order). -/
theorem C4_path_encoders :
    (∀ (st : State) (ac pr ins mo ex fr mr vn en fnm : PyStr),
      lookupAttr st "activity" = some ac →
      lookupAttr st "product" = some pr →
      lookupAttr st "institute" = some ins →
      lookupAttr st "model" = some mo →
      lookupAttr st "experiment" = some ex →
      lookupAttr st "frequency" = some fr →
      lookupAttr st "modeling_realm" = some mr →
      lookupAttr st "variable_name" = some vn →
      lookupAttr st "ensemble_member" = some en →
      cmor_fname st = .ok fnm →
      cmor_fp st =
        .ok (ospath_join ([ac, pr, ins, mo, ex, fr, mr, vn, en] ++ [fnm]))) ∧
    (∀ (st : State) (ac pr ins mo ex fr mr mt en vr vn fnm : PyStr),
      lookupAttr st "activity" = some ac →
      lookupAttr st "product" = some pr →
      lookupAttr st "institute" = some ins →
      lookupAttr st "model" = some mo →
      lookupAttr st "experiment" = some ex →
      lookupAttr st "frequency" = some fr →
      lookupAttr st "modeling_realm" = some mr →
      lookupAttr st "mip_table" = some mt →
      lookupAttr st "ensemble_member" = some en →
      lookupAttr st "version_number" = some vr →
      lookupAttr st "variable_name" = some vn →
      cmor_fname st = .ok fnm →
      datanode_fp st =
        .ok (ospath_join
          ([ac, pr, ins, mo, ex, fr, mr, mt, en, vr, vn] ++ [fnm]))) ∧
    (∀ (st : State) (pre : List String) (k : String) (post : List String),
      CMOR_FP_ATTS = pre ++ k :: post →
      (∀ j ∈ pre, (lookupAttr st j).isSome) →
      lookupAttr st k = none →
      cmor_fp st = .error (.attributeError k)) ∧
    (∀ (st : State) (pre : List String) (k : String) (post : List String),
      DATANODE_FP_ATTS = pre ++ k :: post →
      (∀ j ∈ pre, (lookupAttr st j).isSome) →
      lookupAttr st k = none →
      datanode_fp st = .error (.attributeError k)) := by
  refine ⟨?_, ?_, ?_, ?_⟩
  · intro st ac pr ins mo ex fr mr vn en fnm
    intro h1 h2 h3 h4 h5 h6 h7 h8 h9 hf
    simp [cmor_fp, get_joined_file_path, getattrList, getattr, CMOR_FP_ATTS,
          h1, h2, h3, h4, h5, h6, h7, h8, h9, hf]
  · intro st ac pr ins mo ex fr mr mt en vr vn fnm
    intro h1 h2 h3 h4 h5 h6 h7 h8 h9 h10 h11 hf
    simp [datanode_fp, get_joined_file_path, getattrList, getattr,
          DATANODE_FP_ATTS, h1, h2, h3, h4, h5, h6, h7, h8, h9, h10, h11, hf]
  · intro st pre k post hsplit hpre hk
    simp only [cmor_fp, get_joined_file_path, hsplit,
               getattrList_error_first st pre k post hpre hk]
  · intro st pre k post hsplit hpre hk
    simp only [datanode_fp, get_joined_file_path, hsplit,
               getattrList_error_first st pre k post hpre hk]

/-- C4 witness: both encoders applied at a fully populated record, and both
error clauses at a record missing `product` with `activity` present. -/
theorem C4_path_encoders_witness :
    cmor_fp
      [("activity", "CMIP5".toList), ("product", "output".toList),
       ("institute", "MOHC".toList), ("model", "HadGEM2-ES".toList),
       ("experiment", "rcp45".toList), ("frequency", "mon".toList),
       ("modeling_realm", "atmos".toList), ("variable_name", "tas".toList),
       ("ensemble_member", "r1i1p1".toList), ("mip_table", "Amon".toList),
       ("version_number", "v20111128".toList)] =
      .ok (ospath_join
        (["CMIP5".toList, "output".toList, "MOHC".toList, "HadGEM2-ES".toList,
          "rcp45".toList, "mon".toList, "atmos".toList, "tas".toList,
          "r1i1p1".toList] ++
          ["tas_Amon_HadGEM2-ES_rcp45_r1i1p1.nc".toList])) ∧
    datanode_fp
      [("activity", "CMIP5".toList), ("product", "output".toList),
       ("institute", "MOHC".toList), ("model", "HadGEM2-ES".toList),
       ("experiment", "rcp45".toList), ("frequency", "mon".toList),
       ("modeling_realm", "atmos".toList), ("variable_name", "tas".toList),
       ("ensemble_member", "r1i1p1".toList), ("mip_table", "Amon".toList),
       ("version_number", "v20111128".toList)] =
      .ok (ospath_join
        (["CMIP5".toList, "output".toList, "MOHC".toList, "HadGEM2-ES".toList,
          "rcp45".toList, "mon".toList, "atmos".toList, "Amon".toList,
          "r1i1p1".toList, "v20111128".toList, "tas".toList] ++
          ["tas_Amon_HadGEM2-ES_rcp45_r1i1p1.nc".toList])) ∧
    cmor_fp [("activity", "CMIP5".toList)] =
      .error (.attributeError "product") ∧
    datanode_fp [("activity", "CMIP5".toList)] =
      .error (.attributeError "product") :=
  ⟨C4_path_encoders.1 _ _ _ _ _ _ _ _ _ _ _ (by decide) (by decide) (by decide)
      (by decide) (by decide) (by decide) (by decide) (by decide) (by decide)
      (by decide),
   C4_path_encoders.2.1 _ _ _ _ _ _ _ _ _ _ _ _ _ (by decide) (by decide)
      (by decide) (by decide) (by decide) (by decide) (by decide) (by decide)
      (by decide) (by decide) (by decide) (by decide),
   C4_path_encoders.2.2.1 _ ["activity"] "product"
      ["institute", "model", "experiment", "frequency", "modeling_realm",
       "variable_name", "ensemble_member"] (by decide) (by decide) (by decide),
   C4_path_encoders.2.2.2 _ ["activity"] "product"
      ["institute", "model", "experiment", "frequency", "modeling_realm",
       "mip_table", "ensemble_member", "version_number", "variable_name"]
      (by decide) (by decide) (by decide)⟩

end Climdir
